import Mathlib

/-!
Shallow embedding of the smartinbox backend auth controller
(`Controllers/authController.js`), the context schema
(`Models/ContextModel.js`) and the route/store behaviour they rely on.

JavaScript strings are modelled as `List Char`.  The external OAuth2
provider (`oAuth2Client.getToken`) and the MongoDB connection are
modelled as environment parameters: an exchange function that may fail
and boolean flags for store read/write failures.  `JSON.stringify` /
`JSON.parse` as applied to a Google token object are modelled by a
concrete serializer and parser over the fixed record shape
(access token, refresh token, scope, expiry), with quote and backslash
escaping as in JSON.
-/

/-- JavaScript strings are modelled as lists of characters. -/
abbrev Str := List Char

/-- The literal left-brace character of the JSON serialization. -/
def lbrace : Char := Char.ofNat 123

/-- The literal right-brace character of the JSON serialization. -/
def rbrace : Char := Char.ofNat 125

/-- A Google OAuth2 credential set as returned by `oAuth2Client.getToken`:
access token, refresh token, granted scope and expiry timestamp. -/
structure Tokens where
  access_token : Str
  refresh_token : Str
  scope : Str
  expiry_date : Nat
deriving DecidableEq, Repr

/-- JSON string-body escaping: quote and backslash are escaped with a
backslash, every other character is emitted unchanged. -/
def escapeStr : Str → Str
  | [] => []
  | c :: cs => if c = '"' ∨ c = '\\' then '\\' :: c :: escapeStr cs else c :: escapeStr cs

/-- Parse a JSON string body up to its closing quote, undoing `escapeStr`;
returns the decoded body and the remainder after the closing quote. -/
def parseStrBody : Str → Option (Str × Str)
  | [] => none
  | c :: rest =>
    if c = '"' then some ([], rest)
    else if c = '\\' then
      match rest with
      | [] => none
      | d :: rest2 => (parseStrBody rest2).map fun p => (d :: p.1, p.2)
    else (parseStrBody rest).map fun p => (c :: p.1, p.2)

theorem parseStrBody_quote (rest : Str) : parseStrBody ('"' :: rest) = some ([], rest) := by
  rw [parseStrBody.eq_def]
  simp

theorem parseStrBody_esc (d : Char) (s : Str) :
    parseStrBody ('\\' :: d :: s) = (parseStrBody s).map fun p => (d :: p.1, p.2) := by
  rw [parseStrBody.eq_def]
  simp

theorem parseStrBody_other (c : Char) (h1 : ¬ c = '"') (h2 : ¬ c = '\\') (s : Str) :
    parseStrBody (c :: s) = (parseStrBody s).map fun p => (c :: p.1, p.2) := by
  rw [parseStrBody.eq_def]
  simp [h1, h2]

theorem parseStrBody_escape (s rest : Str) :
    parseStrBody (escapeStr s ++ '"' :: rest) = some (s, rest) := by
  induction s with
  | nil => simp [escapeStr, parseStrBody_quote]
  | cons c cs ih =>
    by_cases h : c = '"' ∨ c = '\\'
    · simp [escapeStr, h, parseStrBody_esc, ih]
    · push_neg at h
      simp [escapeStr, h.1, h.2, parseStrBody_other c h.1 h.2, ih]

/-- Strip an expected literal from the front of the input, failing if the
input does not start with it. -/
def dropLit : Str → Str → Option Str
  | [], s => some s
  | _ :: _, [] => none
  | p :: ps, c :: cs => if c = p then dropLit ps cs else none

theorem dropLit_append (lit rest : Str) : dropLit lit (lit ++ rest) = some rest := by
  induction lit with
  | nil => rfl
  | cons p ps ih => simp [dropLit, ih]

/-- Decimal rendering of a natural number, as `JSON.stringify` prints it. -/
def natToStr (n : Nat) : Str :=
  if n = 0 then ['0'] else ((Nat.digits 10 n).map Nat.digitChar).reverse

/-- Numeric value of a decimal digit character. -/
def digitVal (c : Char) : Nat := c.toNat - 48

/-- Consume a run of decimal digits, accumulating their value onto `acc`;
stops at the first non-digit. -/
def parseNatAux : Str → Nat → Nat × Str
  | [], acc => (acc, [])
  | c :: cs, acc => if c.isDigit then parseNatAux cs (10 * acc + digitVal c) else (acc, c :: cs)

/-- Parse a nonempty run of decimal digits into a natural number, returning
the value and the remainder of the input. -/
def parseNat : Str → Option (Nat × Str)
  | [] => none
  | c :: cs => if c.isDigit then some (parseNatAux cs (digitVal c)) else none

theorem digitChar_isDigit {d : Nat} (h : d < 10) : (Nat.digitChar d).isDigit = true := by
  revert h
  revert d
  decide

theorem digitVal_digitChar {d : Nat} (h : d < 10) : digitVal (Nat.digitChar d) = d := by
  revert h
  revert d
  decide

theorem natToStr_digits (n : Nat) : ∀ c ∈ natToStr n, c.isDigit = true := by
  intro c hc
  unfold natToStr at hc
  by_cases h : n = 0
  · rw [if_pos h] at hc
    simp at hc
    subst hc
    decide
  · rw [if_neg h] at hc
    rw [List.mem_reverse, List.mem_map] at hc
    obtain ⟨d, hd, hdc⟩ := hc
    have := Nat.digits_lt_base (by norm_num) hd
    subst hdc
    exact digitChar_isDigit this

theorem foldl_digits (l : List Nat) (hl : ∀ d ∈ l, d < 10) :
    ((l.map Nat.digitChar).reverse.foldl (fun a c => 10 * a + digitVal c) 0)
      = Nat.ofDigits 10 l := by
  induction l with
  | nil => simp [Nat.ofDigits]
  | cons d ds ih =>
    have hd : d < 10 := hl d (by simp)
    have hds : ∀ x ∈ ds, x < 10 := fun x hx => hl x (by simp [hx])
    rw [List.map_cons, List.reverse_cons, List.foldl_append, ih hds, Nat.ofDigits_cons]
    simp [digitVal_digitChar hd]
    omega

theorem parseNatAux_digits (ds rest : Str) (acc : Nat)
    (hds : ∀ c ∈ ds, c.isDigit = true)
    (hrest : ∀ c, rest.head? = some c → c.isDigit = false) :
    parseNatAux (ds ++ rest) acc
      = (ds.foldl (fun a c => 10 * a + digitVal c) acc, rest) := by
  induction ds generalizing acc with
  | nil =>
    cases rest with
    | nil => rfl
    | cons c cs =>
      have := hrest c rfl
      simp [parseNatAux, this]
  | cons d ds ih =>
    have hd : d.isDigit = true := hds d (by simp)
    have hds2 : ∀ c ∈ ds, c.isDigit = true := fun c hc => hds c (by simp [hc])
    simp [parseNatAux, hd, ih _ hds2]

theorem foldl_natToStr (n : Nat) :
    (natToStr n).foldl (fun a c => 10 * a + digitVal c) 0 = n := by
  unfold natToStr
  by_cases h : n = 0
  · rw [if_pos h, h]
    decide
  · rw [if_neg h]
    have hall : ∀ d ∈ Nat.digits 10 n, d < 10 :=
      fun d hd => Nat.digits_lt_base (by norm_num) hd
    rw [foldl_digits _ hall, Nat.ofDigits_digits]

theorem natToStr_ne_nil (n : Nat) : natToStr n ≠ [] := by
  unfold natToStr
  by_cases h : n = 0
  · rw [if_pos h]
    simp
  · rw [if_neg h]
    simp [Nat.digits_ne_nil_iff_ne_zero.mpr h]

theorem parseNat_natToStr (n : Nat) (rest : Str)
    (hrest : ∀ c, rest.head? = some c → c.isDigit = false) :
    parseNat (natToStr n ++ rest) = some (n, rest) := by
  obtain ⟨d, ds, hcons⟩ := List.exists_cons_of_ne_nil (natToStr_ne_nil n)
  have hdigits := natToStr_digits n
  rw [hcons] at hdigits
  have hd : d.isDigit = true := hdigits d (by simp)
  have hds : ∀ c ∈ ds, c.isDigit = true := fun c hc => hdigits c (by simp [hc])
  have hfold := foldl_natToStr n
  rw [hcons] at hfold
  simp only [List.foldl_cons, Nat.mul_zero, Nat.zero_add] at hfold
  rw [hcons]
  simp [parseNat, hd, parseNatAux_digits ds rest (digitVal d) hds hrest, hfold]

/-- Opening literal of the serialized token object, through the opening
quote of the `access_token` value. -/
def keyAccess : Str := lbrace :: ("\"access_token\":\"".data)

/-- Literal between the `access_token` value and the `refresh_token` value. -/
def keyRefresh : Str := (",\"refresh_token\":\"".data)

/-- Literal between the `refresh_token` value and the `scope` value. -/
def keyScope : Str := (",\"scope\":\"".data)

/-- Literal between the `scope` value and the `expiry_date` number. -/
def keyExpiry : Str := (",\"expiry_date\":".data)

/-- Model of `JSON.stringify(tokens)` on a Google credential set: a
single-object JSON document with the four token fields. -/
def stringifyTokens (t : Tokens) : Str :=
  keyAccess ++ escapeStr t.access_token ++ '"' :: keyRefresh
    ++ escapeStr t.refresh_token ++ '"' :: keyScope
    ++ escapeStr t.scope ++ '"' :: keyExpiry
    ++ natToStr t.expiry_date ++ [rbrace]

/-- Model of `JSON.parse` applied to a stored token string: succeeds
exactly on well-formed serialized credential sets (`none` models the
`SyntaxError` thrown on malformed input, e.g. the empty string). -/
def parseTokens (s : Str) : Option Tokens :=
  (dropLit keyAccess s).bind fun s1 =>
  (parseStrBody s1).bind fun pa =>
  (dropLit keyRefresh pa.2).bind fun s2 =>
  (parseStrBody s2).bind fun pr =>
  (dropLit keyScope pr.2).bind fun s3 =>
  (parseStrBody s3).bind fun ps =>
  (dropLit keyExpiry ps.2).bind fun s4 =>
  (parseNat s4).bind fun pe =>
  (dropLit [rbrace] pe.2).bind fun s5 =>
  if s5 = [] then some ⟨pa.1, pr.1, ps.1, pe.1⟩ else none

theorem parseTokens_stringifyTokens (t : Tokens) :
    parseTokens (stringifyTokens t) = some t := by
  have hE : parseNat (natToStr t.expiry_date ++ [rbrace])
      = some (t.expiry_date, [rbrace]) := by
    apply parseNat_natToStr
    intro c hc
    simp at hc
    subst hc
    decide
  have hR : dropLit [rbrace] [rbrace] = some [] := rfl
  unfold stringifyTokens parseTokens
  simp [List.append_assoc, dropLit_append, parseStrBody_escape, hE, hR]

/-- The blank-token sentinel: the schema default `" "` of the `token`
field in `ContextModel.js`. -/
def blankTok : Str := (" ".data)

theorem stringifyTokens_ne_blank (t : Tokens) : stringifyTokens t ≠ blankTok := by
  unfold stringifyTokens keyAccess blankTok
  intro h
  simp [List.cons_append] at h

theorem parseTokens_nil : parseTokens [] = none := by
  rfl

/-- A persisted context document, as declared by `ContextSchema` in
`Models/ContextModel.js`: optional `name` and `context`, an `email`
carrying a unique index, and a `token` string whose schema default is
the blank sentinel.  The automatic timestamps are not modelled. -/
structure ContextRecord where
  name : Option Str
  email : Str
  context : Option Str
  token : Str
deriving DecidableEq, Repr

/-- The MongoDB collection of context documents, in natural order. -/
abbrev Store := List ContextRecord

/-- The fixed identity hardcoded in the controller
(`irctcvivek62@gmail.com`). -/
def emailId : Str := ("irctcvivek62@gmail.com".data)

/-- Model of `Context.findOne({ email })`: the first document of the
collection whose email matches. -/
def findByEmail (s : Store) (e : Str) : Option ContextRecord :=
  s.find? fun r => decide (r.email = e)

/-- Model of `Context.findOneAndUpdate({email}, {token}, {upsert: true})`:
sets the token of the first matching document, or appends a fresh
document carrying only the email and token when none matches. -/
def upsertToken : Store → Str → Str → Store
  | [], e, tok => [⟨none, e, none, tok⟩]
  | r :: rs, e, tok =>
    if r.email = e then { r with token := tok } :: rs else r :: upsertToken rs e tok

/-- Model of `new Context(...).save()` under the unique index on `email`:
inserting a document whose email already occurs fails with a
duplicate-key error (`none`); otherwise the document is appended. -/
def insertNew (s : Store) (r : ContextRecord) : Option Store :=
  if s.any fun q => decide (q.email = r.email) then none else some (s ++ [r])

/-- Process-wide mutable state shared by the request handlers: the
collection behind the Gateway and the credential set currently held by
`oAuth2Client` (`setCredentials` overwrites it; `none` = never set). -/
structure SysState where
  store : Store
  activeCreds : Option Tokens
deriving DecidableEq, Repr

/-- An HTTP response body: plain text/HTML via `res.send`, or a JSON
object with a `message` field via `res.json`. -/
inductive Body
  | text (s : Str)
  | jsonMsg (message : Str)
deriving DecidableEq, Repr

/-- An HTTP response as produced by the Express handlers. -/
structure HttpResp where
  status : Nat
  body : Body
deriving DecidableEq, Repr

/-- Response body of the missing-code branch of `handleCallback`. -/
def msgMissingCode : Str := ("Authorization code is missing.".data)

/-- Response body of the catch branch of `handleCallback`. -/
def msgAuthFailure : Str := ("An error occurred during authentication.".data)

/-- The static confirmation page sent on callback success; the inline
CSS of the original HTML document is elided, its visible text kept. -/
def confirmationHtml : Str :=
  ("<html><body>Access Granted. Now you can close this tab. Thank you for using our service!</body></html>".data)

/-- Response body after a successful handshake in `authorize`. -/
def msgAuthCompleted : Str := ("Authorization completed, token saved.".data)

/-- Response body when the handshake is signalled with an error. -/
def msgAuthorizeFailed : Str := ("Authorization failed.".data)

/-- Response body of the stored-token branch of `authorize`. -/
def msgTokenExists : Str := ("Token already exists, authorization successful.".data)

/-- Response body of the catch branch of `authorize`. -/
def msgAuthorizeError : Str := ("Error during authorization.".data)

/-- Response body of the validation branch of `saveContext`. -/
def msgMissingFields : Str := ("Missing required fields".data)

/-- Response body of the success branch of `saveContext`. -/
def msgContextSaved : Str := ("Context saved successfully".data)

/-- Response body of the catch branch of `saveContext`. -/
def msgSaveFailed : Str := ("Failed to save context".data)

/-- Failures that can be thrown inside the `try` block of
`handleCallback` and passed to the `tokensSaved` listener. -/
inductive CbError
  | exchangeError
  | storeError
deriving DecidableEq, Repr

/-- Environment of one `handleCallback` invocation: the external
provider's response to `oAuth2Client.getToken` for each code, and
whether the `findOneAndUpdate` store write throws. -/
structure CbEnv where
  exchange : Str → Except Unit Tokens
  writeFail : Bool

/-- Observable outcome of one `handleCallback` invocation: the HTTP
response, the `tokensSaved` emission (`none` = no emit, `some none` =
success payload `null`, `some (some e)` = error payload), and whether
the token exchange and the store write were reached. -/
structure CbResult where
  resp : HttpResp
  emitted : Option (Option CbError)
  exchangeCalled : Bool
  writeAttempted : Bool
deriving DecidableEq, Repr

/-- Model of `handleCallback(req, res)`.  `code` is `req.query.code`
(`none` = parameter absent); JavaScript truthiness makes the empty
string fall into the missing-code branch as well.  `setCredentials`
runs before the store write, so a store failure leaves the newly
exchanged credentials in place. -/
def handleCallback (code : Option Str) (env : CbEnv) (st : SysState) : CbResult × SysState :=
  match code with
  | none => (⟨⟨400, .text msgMissingCode⟩, none, false, false⟩, st)
  | some c =>
    if c = [] then (⟨⟨400, .text msgMissingCode⟩, none, false, false⟩, st)
    else
      match env.exchange c with
      | .error _ => (⟨⟨500, .text msgAuthFailure⟩, some (some .exchangeError), true, false⟩, st)
      | .ok t =>
        let st1 : SysState := { st with activeCreds := some t }
        if env.writeFail then
          (⟨⟨500, .text msgAuthFailure⟩, some (some .storeError), true, true⟩, st1)
        else
          (⟨⟨200, .text confirmationHtml⟩, some none, true, true⟩,
            { st1 with store := upsertToken st1.store emailId (stringifyTokens t) })

/-- Environment of one `authorize` invocation: whether `Context.findOne`
throws, and the `tokensSaved` payload eventually delivered to the
once-listener registered by `getNewToken` (`none` = no callback ever
arrives and the request stays suspended). -/
structure AuthEnv where
  readFail : Bool
  signal : Option (Option CbError)

/-- Observable outcome of one `authorize` invocation: the HTTP response
(`none` = suspended indefinitely on an abandoned handshake) and whether
the handshake side effect (auth-URL generation and browser open in
`getNewToken`) was triggered. -/
structure AuthResult where
  resp : Option HttpResp
  handshakeStarted : Bool
deriving DecidableEq, Repr

/-- Response of the handshake path of `authorize`, resolved by the
promise around `getNewToken` once the `tokensSaved` signal arrives. -/
def handshakeResp (signal : Option (Option CbError)) : Option HttpResp :=
  match signal with
  | none => none
  | some none => some ⟨200, .text msgAuthCompleted⟩
  | some (some _) => some ⟨500, .text msgAuthorizeFailed⟩

/-- Model of `authorize(req, res)`: look up the fixed identity, start a
handshake when no document exists or its token is the blank sentinel,
otherwise `JSON.parse` the stored token and adopt it via
`setCredentials`; `findOne` and `JSON.parse` failures hit the outer
catch. -/
def authorize (env : AuthEnv) (st : SysState) : AuthResult × SysState :=
  if env.readFail then (⟨some ⟨500, .text msgAuthorizeError⟩, false⟩, st)
  else
    match findByEmail st.store emailId with
    | none => (⟨handshakeResp env.signal, true⟩, st)
    | some r =>
      if r.token = blankTok then (⟨handshakeResp env.signal, true⟩, st)
      else
        match parseTokens r.token with
        | none => (⟨some ⟨500, .text msgAuthorizeError⟩, false⟩, st)
        | some tk => (⟨some ⟨200, .text msgTokenExists⟩, false⟩, { st with activeCreds := some tk })

/-- Request body of `saveContext`: the three JSON fields, each possibly
absent. -/
structure SaveBody where
  context : Option Str
  name : Option Str
  emailId : Option Str

/-- JavaScript truthiness of an optional string field: `!field` holds
when the field is absent or the empty string. -/
def fieldFalsy : Option Str → Bool
  | none => true
  | some s => s.isEmpty

/-- Environment of one `saveContext` invocation: whether the store write
throws for reasons other than the unique index. -/
structure SaveEnv where
  writeFail : Bool

/-- Model of `saveContext(req, res)`: validate the three fields by
truthiness, then insert a brand-new document (token left at the schema
default `blankTok`); the unique email index or a connectivity failure
sends the error branch. -/
def saveContext (body : SaveBody) (env : SaveEnv) (st : SysState) : HttpResp × SysState :=
  if fieldFalsy body.context || fieldFalsy body.name || fieldFalsy body.emailId then
    (⟨400, .jsonMsg msgMissingFields⟩, st)
  else
    let r : ContextRecord := ⟨body.name, body.emailId.getD [], body.context, blankTok⟩
    if env.writeFail then (⟨500, .jsonMsg msgSaveFailed⟩, st)
    else
      match insertNew st.store r with
      | none => (⟨500, .jsonMsg msgSaveFailed⟩, st)
      | some s2 => (⟨200, .jsonMsg msgContextSaved⟩, { st with store := s2 })

/-- Uniqueness invariant of the schema: no two documents share an email. -/
def uniqueEmails (s : Store) : Prop := (s.map fun r => r.email).Nodup

theorem email_map_upsertToken (s : Store) (e tok : Str) :
    ((upsertToken s e tok).map fun r => r.email) = (s.map fun r => r.email)
      ∨ (((upsertToken s e tok).map fun r => r.email) = (s.map fun r => r.email) ++ [e]
          ∧ (e ∉ s.map fun r => r.email)) := by
  induction s with
  | nil =>
    right
    refine ⟨?_, ?_⟩ <;> simp [upsertToken]
  | cons r rs ih =>
    by_cases h : r.email = e
    · left
      rw [upsertToken]
      rw [if_pos h]
      simp
    · rw [upsertToken]
      rw [if_neg h]
      rcases ih with h1 | ⟨h1, h2⟩
      · left
        simp [h1]
      · right
        refine ⟨by simp [h1], ?_⟩
        intro hmem
        rw [List.map_cons, List.mem_cons] at hmem
        rcases hmem with h3 | h3
        · exact h h3.symm
        · exact h2 h3

theorem uniqueEmails_upsertToken (s : Store) (e tok : Str) (h : uniqueEmails s) :
    uniqueEmails (upsertToken s e tok) := by
  unfold uniqueEmails at h ⊢
  rcases email_map_upsertToken s e tok with h1 | ⟨h1, h2⟩
  · rw [h1]
    exact h
  · rw [h1, List.nodup_append]
    refine ⟨h, List.nodup_singleton e, ?_⟩
    intro a ha hae
    rw [List.mem_singleton] at hae
    subst hae
    exact h2 ha

theorem uniqueEmails_insertNew (s : Store) (r : ContextRecord) (s2 : Store)
    (h : uniqueEmails s) (hins : insertNew s r = some s2) : uniqueEmails s2 := by
  unfold insertNew at hins
  by_cases hc : s.any fun q => decide (q.email = r.email)
  · rw [if_pos hc] at hins
    cases hins
  · rw [if_neg hc] at hins
    injection hins with heq
    subst heq
    unfold uniqueEmails
    rw [List.map_append, List.map_singleton]
    simp [List.nodup_append]
    refine ⟨h, ?_⟩
    intro q hq hqe
    simp [List.any_eq_true] at hc
    exact hc q hq hqe

theorem findByEmail_upsertToken (s : Store) (e tok : Str) :
    ∃ r, findByEmail (upsertToken s e tok) e = some r ∧ r.email = e ∧ r.token = tok := by
  induction s with
  | nil =>
    refine ⟨⟨none, e, none, tok⟩, ?_, rfl, rfl⟩
    simp [upsertToken, findByEmail]
  | cons r rs ih =>
    by_cases h : r.email = e
    · refine ⟨{ r with token := tok }, ?_, h, rfl⟩
      simp [upsertToken, h, findByEmail, List.find?_cons]
    · obtain ⟨q, hq, hqe, hqt⟩ := ih
      refine ⟨q, ?_, hqe, hqt⟩
      simp [upsertToken, h, findByEmail, List.find?_cons] at hq ⊢
      exact hq

theorem upsertToken_of_absent (s : Store) (e tok : Str)
    (h : findByEmail s e = none) :
    upsertToken s e tok = s ++ [⟨none, e, none, tok⟩] := by
  induction s with
  | nil => simp [upsertToken]
  | cons r rs ih =>
    by_cases he : r.email = e
    · exfalso
      unfold findByEmail at h
      rw [List.find?_eq_none] at h
      have := h r (by simp)
      simp [he] at this
    · have h2 : findByEmail rs e = none := by
        unfold findByEmail at h ⊢
        rw [List.find?_eq_none] at h ⊢
        intro x hx
        exact h x (by simp [hx])
      rw [upsertToken]
      rw [if_neg he, ih h2]
      simp

/-- A concrete credential set used to instantiate theorems. -/
def tokA : Tokens := ⟨("at1".data), ("rt1".data), ("mail".data), 0⟩

/-- A concrete authorization code used to instantiate theorems. -/
def codeABC : Str := ("ABC".data)

/-- C4 counterexample: a request carrying the `code` query parameter with
the empty-string value (`GET /callback?code=`) is answered 400
"Authorization code is missing.", although the parameter is not absent:
JavaScript truthiness (`!code`) conflates the empty string with absence. -/
theorem handleCallback_emptyCode_400 :
    (some ([] : Str)) ≠ none
    ∧ (handleCallback (some []) ⟨fun _ => .ok tokA, false⟩ ⟨[], none⟩).1.resp
        = ⟨400, Body.text msgMissingCode⟩ := by
  exact ⟨by simp, rfl⟩

/-- C4 (amended): `handleCallback` responds 400 "Authorization code is
missing." exactly when the `code` query parameter is absent or the empty
string, performing no token exchange and no store write and leaving the
state unchanged in that case; with a nonempty code the response is
either 200 or 500. -/
theorem handleCallback_missing_code (code : Option Str) (env : CbEnv) (st : SysState) :
    ((code = none ∨ code = some []) →
      (handleCallback code env st).1.resp = ⟨400, Body.text msgMissingCode⟩
      ∧ (handleCallback code env st).1.exchangeCalled = false
      ∧ (handleCallback code env st).1.writeAttempted = false
      ∧ (handleCallback code env st).2 = st)
    ∧ (∀ c, code = some c → c ≠ [] →
        (handleCallback code env st).1.resp.status = 200
        ∨ (handleCallback code env st).1.resp.status = 500)
    ∧ ((handleCallback code env st).1.resp.status = 400 → code = none ∨ code = some []) := by
  cases code with
  | none =>
    refine ⟨fun _ => ⟨rfl, rfl, rfl, rfl⟩, ?_, fun _ => Or.inl rfl⟩
    intro c hc
    cases hc
  | some c =>
    by_cases hc : c = []
    · subst hc
      refine ⟨fun _ => ⟨rfl, rfl, rfl, rfl⟩, ?_, fun _ => Or.inr rfl⟩
      intro d hd hne
      injection hd with hd
      exact absurd hd.symm hne
    · refine ⟨?_, ?_, ?_⟩
      · rintro (h | h)
        · cases h
        · injection h with h
          exact absurd h hc
      · intro d hd hne
        injection hd with hd
        subst hd
        simp only [handleCallback]
        rw [if_neg hc]
        cases hex : env.exchange c with
        | error e => simp [hex]
        | ok t =>
          by_cases hw : env.writeFail
          · simp [hex, hw]
          · simp [hex, hw]
      · intro h400
        exfalso
        simp only [handleCallback] at h400
        rw [if_neg hc] at h400
        cases hex : env.exchange c with
        | error e => simp [hex] at h400
        | ok t =>
          by_cases hw : env.writeFail
          · simp [hex, hw] at h400
          · simp [hex, hw] at h400

/-- C4 witness: at a concrete request with the parameter absent. -/
theorem handleCallback_missing_code_witness :
    (handleCallback none ⟨fun _ => .ok tokA, false⟩ ⟨[], none⟩).1.resp
      = ⟨400, Body.text msgMissingCode⟩ :=
  ((handleCallback_missing_code none ⟨fun _ => .ok tokA, false⟩ ⟨[], none⟩).1
    (Or.inl rfl)).1

/-- C3: with a nonempty authorization code, a successful exchange and a
working store, `handleCallback` adopts the exchanged credentials as the
active set, upserts the document of the fixed identity with the
serialized token (creating it when absent), signals the pending
handshake with success and answers 200 with the static confirmation
page — for every prior state, pending handshake or not. -/
theorem handleCallback_success (c : Str) (t : Tokens) (env : CbEnv) (st : SysState)
    (hc : c ≠ []) (hex : env.exchange c = Except.ok t) (hw : env.writeFail = false) :
    (handleCallback (some c) env st).1.resp = ⟨200, Body.text confirmationHtml⟩
    ∧ (handleCallback (some c) env st).1.emitted = some none
    ∧ (handleCallback (some c) env st).1.exchangeCalled = true
    ∧ (handleCallback (some c) env st).1.writeAttempted = true
    ∧ (handleCallback (some c) env st).2.activeCreds = some t
    ∧ (handleCallback (some c) env st).2.store = upsertToken st.store emailId (stringifyTokens t)
    ∧ (∃ r, findByEmail (handleCallback (some c) env st).2.store emailId = some r
          ∧ r.token = stringifyTokens t)
    ∧ (findByEmail st.store emailId = none →
        (handleCallback (some c) env st).2.store
          = st.store ++ [⟨none, emailId, none, stringifyTokens t⟩]) := by
  have hmain : handleCallback (some c) env st
      = (⟨⟨200, Body.text confirmationHtml⟩, some none, true, true⟩,
          ⟨upsertToken st.store emailId (stringifyTokens t), some t⟩) := by
    simp only [handleCallback]
    rw [if_neg hc, hex]
    simp [hw]
  rw [hmain]
  refine ⟨rfl, rfl, rfl, rfl, rfl, rfl, ?_, ?_⟩
  · obtain ⟨r, hr, hre, hrt⟩ := findByEmail_upsertToken st.store emailId (stringifyTokens t)
    exact ⟨r, hr, hrt⟩
  · intro habs
    exact upsertToken_of_absent st.store emailId (stringifyTokens t) habs

/-- C3 witness: concrete code, exchange outcome and empty store. -/
theorem handleCallback_success_witness :
    codeABC ≠ []
    ∧ (CbEnv.mk (fun _ => Except.ok tokA) false).exchange codeABC = Except.ok tokA
    ∧ (CbEnv.mk (fun _ => Except.ok tokA) false).writeFail = false
    ∧ (handleCallback (some codeABC) ⟨fun _ => Except.ok tokA, false⟩ ⟨[], none⟩).1.resp
        = ⟨200, Body.text confirmationHtml⟩ :=
  ⟨by decide, rfl, rfl,
    (handleCallback_success codeABC tokA ⟨fun _ => Except.ok tokA, false⟩ ⟨[], none⟩
      (by decide) rfl rfl).1⟩

/-- C1 counterexample: a `handleCallback` invocation that fails against
a broken store (500 response) nevertheless replaces the active
credential set, because `setCredentials` runs before the store write. -/
theorem handleCallback_persistFail_mutates_creds :
    (handleCallback (some codeABC) ⟨fun _ => Except.ok tokA, true⟩ ⟨[], none⟩).1.resp.status = 500
    ∧ (handleCallback (some codeABC) ⟨fun _ => Except.ok tokA, true⟩ ⟨[], none⟩).2.activeCreds
        ≠ (SysState.mk [] none).activeCreds := by
  exact ⟨rfl, by decide⟩

/-- C1 (amended): path by path over the failing `handleCallback`
invocations — the missing-code failure (400) leaves the whole state
unchanged; an exchange failure (500) leaves the whole state unchanged;
and every persistence failure (500) leaves the store unchanged but has
already replaced the active credential set with the newly exchanged
credentials, because `setCredentials` runs before the store write. -/
theorem handleCallback_failure_state (code : Option Str) (env : CbEnv) (st : SysState) :
    ((code = none ∨ code = some []) →
      (handleCallback code env st).1.resp.status = 400
      ∧ (handleCallback code env st).2 = st)
    ∧ (∀ c, code = some c → c ≠ [] → ∀ e, env.exchange c = Except.error e →
        (handleCallback code env st).1.resp.status = 500
        ∧ (handleCallback code env st).2 = st)
    ∧ (∀ c, code = some c → c ≠ [] → ∀ t, env.exchange c = Except.ok t →
        env.writeFail = true →
        (handleCallback code env st).1.resp.status = 500
        ∧ (handleCallback code env st).2.store = st.store
        ∧ (handleCallback code env st).2.activeCreds = some t) := by
  cases code with
  | none =>
    refine ⟨fun _ => ⟨rfl, rfl⟩, ?_, ?_⟩ <;> intro c hc <;> cases hc
  | some c =>
    by_cases hc : c = []
    · subst hc
      refine ⟨fun _ => ⟨rfl, rfl⟩, ?_, ?_⟩ <;> intro d hd hne <;> injection hd with hd <;>
        exact absurd hd.symm hne
    · refine ⟨?_, ?_, ?_⟩
      · rintro (h | h)
        · cases h
        · injection h with h
          exact absurd h hc
      · intro d hd hne e hex
        injection hd with hd
        subst hd
        simp only [handleCallback]
        rw [if_neg hc]
        simp [hex]
      · intro d hd hne t hex hw
        injection hd with hd
        subst hd
        simp only [handleCallback]
        rw [if_neg hc]
        simp [hex, hw]

/-- C1 witness: a concrete persistence failure — the invocation fails
with 500 yet the active credential set now holds the exchanged tokens. -/
theorem handleCallback_failure_state_witness :
    codeABC ≠ []
    ∧ (CbEnv.mk (fun _ => Except.ok tokA) true).exchange codeABC = Except.ok tokA
    ∧ (CbEnv.mk (fun _ => Except.ok tokA) true).writeFail = true
    ∧ ((handleCallback (some codeABC) ⟨fun _ => Except.ok tokA, true⟩ ⟨[], none⟩).1.resp.status = 500
        ∧ (handleCallback (some codeABC) ⟨fun _ => Except.ok tokA, true⟩ ⟨[], none⟩).2.store
            = (SysState.mk [] none).store
        ∧ (handleCallback (some codeABC) ⟨fun _ => Except.ok tokA, true⟩ ⟨[], none⟩).2.activeCreds
            = some tokA) :=
  ⟨by decide, rfl, rfl,
    (handleCallback_failure_state (some codeABC) ⟨fun _ => Except.ok tokA, true⟩
      ⟨[], none⟩).2.2 codeABC rfl (by decide) tokA rfl rfl⟩

/-- C5 counterexample: the missing-code failure answers 400 but emits no
`tokensSaved` signal at all, so a pending handshake is left suspended
rather than released with the error. -/
theorem handleCallback_missingCode_no_signal :
    (handleCallback none ⟨fun _ => Except.ok tokA, true⟩ ⟨[], none⟩).1.resp.status = 400
    ∧ (handleCallback none ⟨fun _ => Except.ok tokA, true⟩ ⟨[], none⟩).1.emitted = none :=
  ⟨rfl, rfl⟩

/-- C5 (amended): `handleCallback` signals any pending handshake with
the error on the exchange-failure and persistence-failure paths (and
with success on the success path), but the missing-code failure emits
no signal. -/
theorem handleCallback_signalling (code : Option Str) (env : CbEnv) (st : SysState) :
    ((code = none ∨ code = some []) → (handleCallback code env st).1.emitted = none)
    ∧ (∀ c, code = some c → c ≠ [] → ∀ e, env.exchange c = Except.error e →
        (handleCallback code env st).1.emitted = some (some CbError.exchangeError))
    ∧ (∀ c, code = some c → c ≠ [] → ∀ t, env.exchange c = Except.ok t →
        env.writeFail = true →
        (handleCallback code env st).1.emitted = some (some CbError.storeError))
    ∧ (∀ c, code = some c → c ≠ [] → ∀ t, env.exchange c = Except.ok t →
        env.writeFail = false →
        (handleCallback code env st).1.emitted = some none) := by
  cases code with
  | none =>
    refine ⟨fun _ => rfl, ?_, ?_, ?_⟩ <;> intro c hc <;> cases hc
  | some c =>
    by_cases hc : c = []
    · subst hc
      refine ⟨fun _ => rfl, ?_, ?_, ?_⟩ <;> intro d hd hne <;> injection hd with hd <;>
        exact absurd hd.symm hne
    · refine ⟨?_, ?_, ?_, ?_⟩
      · rintro (h | h)
        · cases h
        · injection h with h
          exact absurd h hc
      · intro d hd hne e hex
        injection hd with hd
        subst hd
        simp only [handleCallback]
        rw [if_neg hc]
        simp [hex]
      · intro d hd hne t hex hw
        injection hd with hd
        subst hd
        simp only [handleCallback]
        rw [if_neg hc]
        simp [hex, hw]
      · intro d hd hne t hex hw
        injection hd with hd
        subst hd
        simp only [handleCallback]
        rw [if_neg hc]
        simp [hex, hw]

/-- C5 witness: a concrete exchange failure is signalled as such. -/
theorem handleCallback_signalling_witness :
    codeABC ≠ []
    ∧ (CbEnv.mk (fun _ => Except.error ()) false).exchange codeABC = Except.error ()
    ∧ (handleCallback (some codeABC) ⟨fun _ => Except.error (), false⟩ ⟨[], none⟩).1.emitted
        = some (some CbError.exchangeError) :=
  ⟨by decide, rfl,
    (handleCallback_signalling (some codeABC) ⟨fun _ => Except.error (), false⟩
      ⟨[], none⟩).2.1 codeABC rfl (by decide) () rfl⟩

/-- C2: under a read that succeeds, `authorize` starts a handshake iff
the document is absent or carries the blank sentinel (responding per
the eventual signal), and on a present well-formed token adopts the
parsed credential set, answers 200 "Token already exists, authorization
successful." and starts no handshake. -/
theorem authorize_token_decision (env : AuthEnv) (st : SysState)
    (hread : env.readFail = false) :
    ((findByEmail st.store emailId = none
        ∨ ∃ r, findByEmail st.store emailId = some r ∧ r.token = blankTok) →
      (authorize env st).1.handshakeStarted = true
      ∧ (authorize env st).2 = st
      ∧ (env.signal = some none →
          (authorize env st).1.resp = some ⟨200, Body.text msgAuthCompleted⟩)
      ∧ (∀ e, env.signal = some (some e) →
          (authorize env st).1.resp = some ⟨500, Body.text msgAuthorizeFailed⟩))
    ∧ (∀ r tk, findByEmail st.store emailId = some r → r.token ≠ blankTok →
        parseTokens r.token = some tk →
        (authorize env st).1.handshakeStarted = false
        ∧ (authorize env st).1.resp = some ⟨200, Body.text msgTokenExists⟩
        ∧ (authorize env st).2.activeCreds = some tk
        ∧ (authorize env st).2.store = st.store) := by
  constructor
  · intro hfind
    have hmain : authorize env st = (⟨handshakeResp env.signal, true⟩, st) := by
      unfold authorize
      rw [hread]
      rcases hfind with hfind | ⟨r, hfind, htok⟩
      · simp [hfind]
      · simp [hfind, htok]
    rw [hmain]
    refine ⟨rfl, rfl, ?_, ?_⟩
    · intro hs
      simp [handshakeResp, hs]
    · intro e hs
      simp [handshakeResp, hs]
  · intro r tk hfind htok hparse
    have hmain : authorize env st
        = (⟨some ⟨200, Body.text msgTokenExists⟩, false⟩,
            { st with activeCreds := some tk }) := by
      unfold authorize
      rw [hread]
      simp [hfind, htok, hparse]
    rw [hmain]
    exact ⟨rfl, rfl, rfl, rfl⟩

/-- C2 witness: a blank-token document exists, the callback signal is a
success, and the handshake path answers 200 "Authorization completed". -/
theorem authorize_token_decision_witness :
    (∃ r, findByEmail [⟨none, emailId, none, blankTok⟩] emailId = some r
        ∧ r.token = blankTok)
    ∧ (authorize ⟨false, some none⟩
        ⟨[⟨none, emailId, none, blankTok⟩], none⟩).1.handshakeStarted = true
    ∧ (authorize ⟨false, some none⟩
        ⟨[⟨none, emailId, none, blankTok⟩], none⟩).1.resp
        = some ⟨200, Body.text msgAuthCompleted⟩ := by
  have h := (authorize_token_decision ⟨false, some none⟩
    ⟨[⟨none, emailId, none, blankTok⟩], none⟩ rfl).1
    (Or.inr ⟨⟨none, emailId, none, blankTok⟩, by decide, rfl⟩)
  exact ⟨⟨⟨none, emailId, none, blankTok⟩, by decide, rfl⟩, h.1, h.2.2.1 rfl⟩

/-- C7: a failing `findOne` and a stored token that fails to parse both
answer 500 "Error during authorization.", start no handshake and leave
the whole state (store and active credential set) unchanged. -/
theorem authorize_error_paths (env : AuthEnv) (st : SysState) :
    (env.readFail = true →
      (authorize env st).1.resp = some ⟨500, Body.text msgAuthorizeError⟩
      ∧ (authorize env st).1.handshakeStarted = false
      ∧ (authorize env st).2 = st)
    ∧ (env.readFail = false → ∀ r, findByEmail st.store emailId = some r →
        r.token ≠ blankTok → parseTokens r.token = none →
        (authorize env st).1.resp = some ⟨500, Body.text msgAuthorizeError⟩
        ∧ (authorize env st).1.handshakeStarted = false
        ∧ (authorize env st).2 = st) := by
  constructor
  · intro h
    have hmain : authorize env st
        = (⟨some ⟨500, Body.text msgAuthorizeError⟩, false⟩, st) := by
      unfold authorize
      rw [h]
      simp
    rw [hmain]
    exact ⟨rfl, rfl, rfl⟩
  · intro h r hfind htok hparse
    have hmain : authorize env st
        = (⟨some ⟨500, Body.text msgAuthorizeError⟩, false⟩, st) := by
      unfold authorize
      rw [h]
      simp [hfind, htok, hparse]
    rw [hmain]
    exact ⟨rfl, rfl, rfl⟩

/-- C7 witness: the Gateway read failure at a concrete state. -/
theorem authorize_error_paths_witness :
    (AuthEnv.mk true none).readFail = true
    ∧ (authorize ⟨true, none⟩ ⟨[], none⟩).1.resp
        = some ⟨500, Body.text msgAuthorizeError⟩ :=
  ⟨rfl, ((authorize_error_paths ⟨true, none⟩ ⟨[], none⟩).1 rfl).1⟩

theorem handleCallback_ok_eq (c : Str) (t : Tokens) (env : CbEnv) (st : SysState)
    (hc : c ≠ []) (hex : env.exchange c = Except.ok t) (hw : env.writeFail = false) :
    handleCallback (some c) env st
      = (⟨⟨200, Body.text confirmationHtml⟩, some none, true, true⟩,
          ⟨upsertToken st.store emailId (stringifyTokens t), some t⟩) := by
  simp only [handleCallback]
  rw [if_neg hc, hex]
  simp [hw]

/-- C6: the credential set obtained from the exchange survives the
serialize–persist–read–parse round trip: `parseTokens` inverts
`stringifyTokens`, and an `authorize` run on the state left by a
successful `handleCallback` adopts exactly the exchanged credentials. -/
theorem token_roundtrip (c : Str) (t : Tokens) (env : CbEnv) (env2 : AuthEnv) (st : SysState)
    (hc : c ≠ []) (hex : env.exchange c = Except.ok t) (hw : env.writeFail = false)
    (hr : env2.readFail = false) :
    parseTokens (stringifyTokens t) = some t
    ∧ (authorize env2 (handleCallback (some c) env st).2).2.activeCreds = some t
    ∧ (authorize env2 (handleCallback (some c) env st).2).1.resp
        = some ⟨200, Body.text msgTokenExists⟩ := by
  rw [handleCallback_ok_eq c t env st hc hex hw]
  obtain ⟨r, hfind, hre, hrt⟩ := findByEmail_upsertToken st.store emailId (stringifyTokens t)
  have htokne : r.token ≠ blankTok := by
    rw [hrt]
    exact stringifyTokens_ne_blank t
  have hparse : parseTokens r.token = some t := by
    rw [hrt]
    exact parseTokens_stringifyTokens t
  have hmain : authorize env2 ⟨upsertToken st.store emailId (stringifyTokens t), some t⟩
      = (⟨some ⟨200, Body.text msgTokenExists⟩, false⟩,
          ⟨upsertToken st.store emailId (stringifyTokens t), some t⟩) := by
    unfold authorize
    rw [hr]
    simp [hfind, htokne, hparse]
  rw [hmain]
  exact ⟨parseTokens_stringifyTokens t, rfl, rfl⟩

/-- C6 witness: the concrete round trip through both handlers. -/
theorem token_roundtrip_witness :
    codeABC ≠ []
    ∧ parseTokens (stringifyTokens tokA) = some tokA
    ∧ (authorize ⟨false, none⟩
        (handleCallback (some codeABC) ⟨fun _ => Except.ok tokA, false⟩
          ⟨[], none⟩).2).2.activeCreds = some tokA :=
  ⟨by decide,
    (token_roundtrip codeABC tokA ⟨fun _ => Except.ok tokA, false⟩ ⟨false, none⟩
      ⟨[], none⟩ (by decide) rfl rfl rfl).1,
    (token_roundtrip codeABC tokA ⟨fun _ => Except.ok tokA, false⟩ ⟨false, none⟩
      ⟨[], none⟩ (by decide) rfl rfl rfl).2.1⟩

theorem handleCallback_store_cases (code : Option Str) (env : CbEnv) (st : SysState) :
    (handleCallback code env st).2.store = st.store
    ∨ ∃ t, (handleCallback code env st).2.store
        = upsertToken st.store emailId (stringifyTokens t) := by
  cases code with
  | none => left; rfl
  | some c =>
    by_cases hc : c = []
    · subst hc
      left; rfl
    · simp only [handleCallback]
      rw [if_neg hc]
      cases hex : env.exchange c with
      | error e => left; rfl
      | ok t =>
        by_cases hw : env.writeFail
        · left
          simp [hw]
        · right
          exact ⟨t, by simp [hw]⟩

theorem fieldFalsy_some_ne (s : Str) (h : s ≠ []) : fieldFalsy (some s) = false := by
  cases s with
  | nil => exact absurd rfl h
  | cons a l => rfl

theorem saveContext_store_cases (body : SaveBody) (env : SaveEnv) (st : SysState) :
    (saveContext body env st).2.store = st.store
    ∨ (saveContext body env st).2.store
        = st.store ++ [⟨body.name, body.emailId.getD [], body.context, blankTok⟩] := by
  unfold saveContext
  by_cases hval : (fieldFalsy body.context || fieldFalsy body.name || fieldFalsy body.emailId) = true
  · rw [if_pos hval]
    left; rfl
  · rw [if_neg hval]
    by_cases hw : env.writeFail = true
    · simp only [hw]
      left; rfl
    · simp only [Bool.not_eq_true] at hw
      simp only [hw]
      cases hins : insertNew st.store ⟨body.name, body.emailId.getD [], body.context, blankTok⟩ with
      | none =>
        simp only [hins]
        left; rfl
      | some s2 =>
        simp only [hins]
        right
        unfold insertNew at hins
        by_cases hdup : st.store.any fun q => decide (q.email = ContextRecord.email ⟨body.name, body.emailId.getD [], body.context, blankTok⟩)
        · rw [if_pos hdup] at hins
          cases hins
        · rw [if_neg hdup] at hins
          injection hins with hins
          simp [hins.symm]

/-- C8: the email-uniqueness invariant of the schema is preserved by
both write paths — `handleCallback`'s upsert and `saveContext`'s record
creation — in every environment, including a save for an identity that
already has a document (which the unique index rejects). -/
theorem email_uniqueness_preserved (code : Option Str) (env : CbEnv)
    (body : SaveBody) (envS : SaveEnv) (st : SysState) (h : uniqueEmails st.store) :
    uniqueEmails (handleCallback code env st).2.store
    ∧ uniqueEmails (saveContext body envS st).2.store := by
  constructor
  · rcases handleCallback_store_cases code env st with hcb | ⟨t, hcb⟩
    · rw [hcb]
      exact h
    · rw [hcb]
      exact uniqueEmails_upsertToken st.store emailId (stringifyTokens t) h
  · unfold saveContext
    by_cases hval : (fieldFalsy body.context || fieldFalsy body.name || fieldFalsy body.emailId) = true
    · rw [if_pos hval]
      exact h
    · rw [if_neg hval]
      by_cases hw : envS.writeFail = true
      · simp only [hw]
        exact h
      · simp only [Bool.not_eq_true] at hw
        simp only [hw]
        cases hins : insertNew st.store ⟨body.name, body.emailId.getD [], body.context, blankTok⟩ with
        | none =>
          simp only [hins]
          exact h
        | some s2 =>
          simp only [hins]
          exact uniqueEmails_insertNew st.store _ s2 h hins

/-- C8 witness: concrete upsert into a store that already satisfies the
invariant. -/
theorem email_uniqueness_preserved_witness :
    uniqueEmails ([⟨none, emailId, none, blankTok⟩] : Store)
    ∧ uniqueEmails (handleCallback (some codeABC) ⟨fun _ => Except.ok tokA, false⟩
        ⟨[⟨none, emailId, none, blankTok⟩], none⟩).2.store :=
  ⟨by simp [uniqueEmails],
    (email_uniqueness_preserved (some codeABC) ⟨fun _ => Except.ok tokA, false⟩
      ⟨none, none, none⟩ ⟨false⟩ ⟨[⟨none, emailId, none, blankTok⟩], none⟩
      (by simp [uniqueEmails])).1⟩

/-- C9 counterexample: a body whose three fields are all present, with
`context` the empty string, is rejected 400 "Missing required fields" —
JavaScript truthiness (`!context`) conflates an empty field with a
missing one. -/
theorem saveContext_emptyField_400 :
    (SaveBody.mk (some []) (some ("A".data)) (some ("a@x.com".data))).context ≠ none
    ∧ (SaveBody.mk (some []) (some ("A".data)) (some ("a@x.com".data))).name ≠ none
    ∧ (SaveBody.mk (some []) (some ("A".data)) (some ("a@x.com".data))).emailId ≠ none
    ∧ (saveContext ⟨some [], some ("A".data), some ("a@x.com".data)⟩ ⟨false⟩ ⟨[], none⟩).1
        = ⟨400, Body.jsonMsg msgMissingFields⟩ := by
  refine ⟨by simp, by simp, by simp, rfl⟩

/-- C9 (amended): `saveContext` responds 400 `{message: "Missing
required fields"}` exactly when one of the three fields is missing or
empty; otherwise it attempts to insert a brand-new document (not an
upsert by email) carrying the given fields and the blank token,
responding 200 on success and 500 on store error — the latter including
the duplicate-email rejection by the unique index. -/
theorem saveContext_spec (body : SaveBody) (env : SaveEnv) (st : SysState) :
    ((fieldFalsy body.context || fieldFalsy body.name || fieldFalsy body.emailId) = true →
      (saveContext body env st).1 = ⟨400, Body.jsonMsg msgMissingFields⟩
      ∧ (saveContext body env st).2 = st)
    ∧ ((saveContext body env st).1.status = 400 →
        (fieldFalsy body.context || fieldFalsy body.name || fieldFalsy body.emailId) = true)
    ∧ (∀ ctx nm em, body = ⟨some ctx, some nm, some em⟩ → ctx ≠ [] → nm ≠ [] → em ≠ [] →
        (env.writeFail = false → (∀ q ∈ st.store, q.email ≠ em) →
          (saveContext body env st).1 = ⟨200, Body.jsonMsg msgContextSaved⟩
          ∧ (saveContext body env st).2.store
              = st.store ++ [⟨some nm, em, some ctx, blankTok⟩])
        ∧ (env.writeFail = true →
          (saveContext body env st).1 = ⟨500, Body.jsonMsg msgSaveFailed⟩
          ∧ (saveContext body env st).2 = st)
        ∧ ((∃ q ∈ st.store, q.email = em) →
          (saveContext body env st).1 = ⟨500, Body.jsonMsg msgSaveFailed⟩
          ∧ (saveContext body env st).2 = st)) := by
  refine ⟨?_, ?_, ?_⟩
  · intro hval
    unfold saveContext
    rw [if_pos hval]
    exact ⟨rfl, rfl⟩
  · intro h400
    by_cases hval : (fieldFalsy body.context || fieldFalsy body.name || fieldFalsy body.emailId) = true
    · exact hval
    · exfalso
      unfold saveContext at h400
      rw [if_neg hval] at h400
      by_cases hw : env.writeFail = true
      · simp only [hw] at h400
        simp at h400
      · simp only [Bool.not_eq_true] at hw
        simp only [hw] at h400
        cases hins : insertNew st.store ⟨body.name, body.emailId.getD [], body.context, blankTok⟩ with
        | none =>
          simp only [hins] at h400
          simp at h400
        | some s2 =>
          simp only [hins] at h400
          simp at h400
  · intro ctx nm em hbody hctx hnm hem
    subst hbody
    have hval : (fieldFalsy (some ctx) || fieldFalsy (some nm) || fieldFalsy (some em)) = false := by
      rw [fieldFalsy_some_ne ctx hctx, fieldFalsy_some_ne nm hnm, fieldFalsy_some_ne em hem]
      rfl
    refine ⟨?_, ?_, ?_⟩
    · intro hw hfresh
      have hins : insertNew st.store ⟨some nm, em, some ctx, blankTok⟩
          = some (st.store ++ [⟨some nm, em, some ctx, blankTok⟩]) := by
        unfold insertNew
        rw [if_neg ?_]
        intro hany
        rw [List.any_eq_true] at hany
        obtain ⟨q, hq, hqe⟩ := hany
        rw [decide_eq_true_eq] at hqe
        exact hfresh q hq hqe
      unfold saveContext
      rw [hval]
      simp only [Bool.false_or, Bool.or_self, Bool.false_eq_true, if_false]
      simp only [hw]
      simp only [Option.getD_some, hins]
      exact ⟨rfl, rfl⟩
    · intro hw
      unfold saveContext
      rw [hval]
      simp only [Bool.false_or, Bool.or_self, Bool.false_eq_true, if_false]
      simp only [hw]
      exact ⟨rfl, rfl⟩
    · intro hdup
      obtain ⟨q, hq, hqe⟩ := hdup
      have hins : insertNew st.store ⟨some nm, em, some ctx, blankTok⟩ = none := by
        unfold insertNew
        rw [if_pos ?_]
        rw [List.any_eq_true]
        exact ⟨q, hq, by rw [decide_eq_true_eq]; exact hqe⟩
      unfold saveContext
      rw [hval]
      simp only [Bool.false_or, Bool.or_self, Bool.false_eq_true, if_false]
      by_cases hw : env.writeFail = true
      · simp only [hw]
        exact ⟨rfl, rfl⟩
      · simp only [Bool.not_eq_true] at hw
        simp only [hw]
        simp only [Option.getD_some, hins]
        exact ⟨rfl, rfl⟩

/-- C9 witness: a concrete valid body inserted into an empty store. -/
theorem saveContext_spec_witness :
    ("ctx".data) ≠ ([] : Str)
    ∧ (saveContext ⟨some ("ctx".data), some ("A".data), some ("a@x.com".data)⟩ ⟨false⟩
        ⟨[], none⟩).1 = ⟨200, Body.jsonMsg msgContextSaved⟩ :=
  ⟨by decide,
    (((saveContext_spec ⟨some ("ctx".data), some ("A".data), some ("a@x.com".data)⟩ ⟨false⟩
      ⟨[], none⟩).2.2 ("ctx".data) ("A".data) ("a@x.com".data) rfl (by decide) (by decide)
      (by decide)).1 rfl (by simp)).1⟩

theorem authorize_eq (env : AuthEnv) (st : SysState) (hread : env.readFail = false) :
    authorize env st =
      match findByEmail st.store emailId with
      | none => (⟨handshakeResp env.signal, true⟩, st)
      | some r =>
        if r.token = blankTok then (⟨handshakeResp env.signal, true⟩, st)
        else
          match parseTokens r.token with
          | none => (⟨some ⟨500, Body.text msgAuthorizeError⟩, false⟩, st)
          | some tk =>
            (⟨some ⟨200, Body.text msgTokenExists⟩, false⟩, { st with activeCreds := some tk }) := by
  unfold authorize
  rw [hread, if_neg (by simp : ¬ (false = true))]

/-- C10: the blank sentinel is exactly the one-character string of a
single space: `saveContext` leaves the store unchanged or appends a
document whose token is precisely `[' ']`; under a successful read,
`authorize` starts a handshake exactly when the document is absent or
its token equals `[' ']`; and a document whose token is the empty
string takes the token-present path and fails with the 500 parse error
instead of starting a handshake. -/
theorem blank_sentinel_spec (env : AuthEnv) (st : SysState) (body : SaveBody)
    (envS : SaveEnv) (hread : env.readFail = false) :
    blankTok = [' ']
    ∧ ((saveContext body envS st).2.store = st.store
        ∨ (saveContext body envS st).2.store
            = st.store ++ [⟨body.name, body.emailId.getD [], body.context, [' ']⟩])
    ∧ ((authorize env st).1.handshakeStarted = true
        ↔ (findByEmail st.store emailId = none
            ∨ ∃ r, findByEmail st.store emailId = some r ∧ r.token = [' ']))
    ∧ (∀ r, findByEmail st.store emailId = some r → r.token = [] →
        (authorize env st).1.resp = some ⟨500, Body.text msgAuthorizeError⟩
        ∧ (authorize env st).1.handshakeStarted = false) := by
  have hblank : blankTok = [' '] := rfl
  refine ⟨hblank, ?_, ?_, ?_⟩
  · rcases saveContext_store_cases body envS st with h | h
    · left
      exact h
    · right
      rw [h, hblank]
  · rw [authorize_eq env st hread]
    constructor
    · intro hhs
      cases hfind : findByEmail st.store emailId with
      | none => exact Or.inl rfl
      | some r =>
        rw [hfind] at hhs
        by_cases htok : r.token = blankTok
        · exact Or.inr ⟨r, rfl, by rw [← hblank]; exact htok⟩
        · exfalso
          cases hparse : parseTokens r.token with
          | none => simp [htok, hparse] at hhs
          | some tk => simp [htok, hparse] at hhs
    · rintro (hfind | ⟨r, hfind, htok⟩)
      · rw [hfind]
      · have htok2 : r.token = blankTok := by
          rw [hblank]
          exact htok
        simp [hfind, htok2]
  · intro r hfind htok
    have htokne : ¬ r.token = blankTok := by
      rw [htok, hblank]
      simp
    have hparse : parseTokens r.token = none := by
      rw [htok]
      exact parseTokens_nil
    rw [authorize_eq env st hread]
    simp [hfind, htokne, hparse]

/-- C10 witness: the empty store starts a handshake. -/
theorem blank_sentinel_spec_witness :
    (AuthEnv.mk false none).readFail = false
    ∧ blankTok = [' ']
    ∧ (authorize ⟨false, none⟩ ⟨[], none⟩).1.handshakeStarted = true :=
  ⟨rfl,
    (blank_sentinel_spec ⟨false, none⟩ ⟨[], none⟩ ⟨none, none, none⟩ ⟨false⟩ rfl).1,
    ((blank_sentinel_spec ⟨false, none⟩ ⟨[], none⟩ ⟨none, none, none⟩ ⟨false⟩
      rfl).2.2.1).mpr (Or.inl rfl)⟩
